import Mathlib

/-!
Verification of the per-document collaboration engine of the OT-editor
repository (`poc/server/ot-service.js`, `poc/server/enhanced-document-manager.js`
and the socket server).  The JavaScript code is shallowly embedded below:
every definition mirrors one source function; `uuidv4()` is modelled by a
threaded counter `uuid n` (fresh identifiers), JavaScript strings by `String`,
nullable fields by `Option`, and `str.slice` by `List.take`/`List.drop` on the
character data (all positions in the scenarios are in range, so clamping
semantics agree).
-/

/-- The `type` field of a `DocumentOperation` (a string in the source,
restricted by the spec to these four kinds). -/
inductive OpType
  | insert
  | delete
  | replace
  | retain
deriving DecidableEq

/-- Mirror of `DocumentOperation` (ot-service.js).  `content`, `length` and
`clientId` are nullable in the source. -/
structure Op where
  type : OpType
  position : Nat
  content : Option String
  length : Option Nat
  userId : String
  timestamp : Nat
  clientId : Option String
  id : String
  version : Nat
  applied : Bool
deriving DecidableEq

/-- Model of `uuidv4()`: the n-th identifier drawn from the generator.
Distinct draws are distinct strings. -/
def uuid (n : Nat) : String :=
  "uuid-" ++ toString n

/-- Mirror of the `DocumentOperation` constructor: `id` is freshly generated,
`version` starts at 1 and `applied` at false.  (`clone` copies every field and
is therefore the identity in this embedding.) -/
def mkOp (type : OpType) (position : Nat) (content : Option String)
    (length : Option Nat) (userId : String) (timestamp : Nat)
    (clientId : Option String) (n : Nat) : Op :=
  ⟨type, position, content, length, userId, timestamp, clientId, uuid n, 1, false⟩

/-- `op.content?.length || 0` — length of the nullable content. -/
def cLen (o : Op) : Nat :=
  (o.content.getD "").length

/-- `op.length || 0` — the nullable span. -/
def dLen (o : Op) : Nat :=
  o.length.getD 0

/-- Mirror of `EnhancedOTService.transformInsertInsert`. -/
def transformInsertInsert (op1 op2 : Op) (prio : Bool) (n : Nat) :
    (Option Op × Option Op) × Nat :=
  if op1.position < op2.position ∨ (op1.position = op2.position ∧ prio = true) then
    ((some op1,
      some (mkOp op2.type (op2.position + cLen op1) op2.content op2.length
        op2.userId op2.timestamp op2.clientId n)), n + 1)
  else
    ((some (mkOp op1.type (op1.position + cLen op2) op1.content op1.length
        op1.userId op1.timestamp op1.clientId n), some op2), n + 1)

/-- Mirror of `EnhancedOTService.transformInsertDelete`. -/
def transformInsertDelete (op1 op2 : Op) (n : Nat) :
    (Option Op × Option Op) × Nat :=
  if op1.position ≤ op2.position then
    ((some op1,
      some (mkOp op2.type (op2.position + cLen op1) op2.content op2.length
        op2.userId op2.timestamp op2.clientId n)), n + 1)
  else if op2.position + dLen op2 ≤ op1.position then
    ((some (mkOp op1.type (op1.position - dLen op2) op1.content op1.length
        op1.userId op1.timestamp op1.clientId n), some op2), n + 1)
  else
    ((some (mkOp op1.type op2.position op1.content op1.length
        op1.userId op1.timestamp op1.clientId n), some op2), n + 1)

/-- Mirror of `EnhancedOTService.transformInsertReplace`. -/
def transformInsertReplace (op1 op2 : Op) (n : Nat) :
    (Option Op × Option Op) × Nat :=
  if op1.position ≤ op2.position then
    ((some op1,
      some (mkOp op2.type (op2.position + cLen op1) op2.content op2.length
        op2.userId op2.timestamp op2.clientId n)), n + 1)
  else if op2.position + dLen op2 ≤ op1.position then
    ((some (mkOp op1.type (op1.position - dLen op2 + cLen op2) op1.content
        op1.length op1.userId op1.timestamp op1.clientId n), some op2), n + 1)
  else
    ((some (mkOp op1.type (op2.position + cLen op2) op1.content op1.length
        op1.userId op1.timestamp op1.clientId n), some op2), n + 1)

/-- Mirror of `EnhancedOTService.transformDeleteInsert`. -/
def transformDeleteInsert (op1 op2 : Op) (n : Nat) :
    (Option Op × Option Op) × Nat :=
  if op2.position ≤ op1.position then
    ((some (mkOp op1.type (op1.position + cLen op2) op1.content op1.length
        op1.userId op1.timestamp op1.clientId n), some op2), n + 1)
  else if op1.position + dLen op1 ≤ op2.position then
    ((some op1,
      some (mkOp op2.type (op2.position - dLen op1) op2.content op2.length
        op2.userId op2.timestamp op2.clientId n)), n + 1)
  else
    ((some op1,
      some (mkOp op2.type op1.position op2.content op2.length
        op2.userId op2.timestamp op2.clientId n)), n + 1)

/-- Mirror of `EnhancedOTService.transformDeleteDelete`.  In the overlap
branch both new operations are constructed (consuming two fresh ids) and a
side is yielded as absent exactly when its clamped length is zero. -/
def transformDeleteDelete (op1 op2 : Op) (n : Nat) :
    (Option Op × Option Op) × Nat :=
  if op1.position + dLen op1 ≤ op2.position then
    ((some op1,
      some (mkOp op2.type (op2.position - dLen op1) op2.content op2.length
        op2.userId op2.timestamp op2.clientId n)), n + 1)
  else if op2.position + dLen op2 ≤ op1.position then
    ((some (mkOp op1.type (op1.position - dLen op2) op1.content op1.length
        op1.userId op1.timestamp op1.clientId n), some op2), n + 1)
  else
    let op1End := op1.position + dLen op1
    let op2End := op2.position + dLen op2
    let overlapStart := max op1.position op2.position
    let overlapEnd := min op1End op2End
    let overlapLength := overlapEnd - overlapStart
    let newOp1 := mkOp op1.type op1.position op1.content
      (some (dLen op1 - overlapLength)) op1.userId op1.timestamp op1.clientId n
    let newOp2 := mkOp op2.type op2.position op2.content
      (some (dLen op2 - overlapLength)) op2.userId op2.timestamp op2.clientId (n + 1)
    ((if 0 < dLen op1 - overlapLength then some newOp1 else none,
      if 0 < dLen op2 - overlapLength then some newOp2 else none), n + 2)

/-- Mirror of `EnhancedOTService.transformDeleteReplace`.  In the overlap
branch only the delete's length is clamped; no zero-length check occurs. -/
def transformDeleteReplace (op1 op2 : Op) (n : Nat) :
    (Option Op × Option Op) × Nat :=
  if op1.position + dLen op1 ≤ op2.position then
    ((some op1,
      some (mkOp op2.type (op2.position - dLen op1) op2.content op2.length
        op2.userId op2.timestamp op2.clientId n)), n + 1)
  else if op2.position + dLen op2 ≤ op1.position then
    ((some (mkOp op1.type (op1.position - dLen op2 + cLen op2) op1.content
        op1.length op1.userId op1.timestamp op1.clientId n), some op2), n + 1)
  else
    let overlap := min (op1.position + dLen op1) (op2.position + dLen op2) -
      max op1.position op2.position
    ((some (mkOp op1.type op1.position op1.content (some (dLen op1 - overlap))
        op1.userId op1.timestamp op1.clientId n), some op2), n + 1)

/-- Mirror of `EnhancedOTService.transformReplaceInsert`. -/
def transformReplaceInsert (op1 op2 : Op) (n : Nat) :
    (Option Op × Option Op) × Nat :=
  if op2.position ≤ op1.position then
    ((some (mkOp op1.type (op1.position + cLen op2) op1.content op1.length
        op1.userId op1.timestamp op1.clientId n), some op2), n + 1)
  else if op1.position + dLen op1 ≤ op2.position then
    ((some op1,
      some (mkOp op2.type (op2.position - dLen op1 + cLen op1) op2.content
        op2.length op2.userId op2.timestamp op2.clientId n)), n + 1)
  else
    ((some op1,
      some (mkOp op2.type (op1.position + cLen op1) op2.content op2.length
        op2.userId op2.timestamp op2.clientId n)), n + 1)

/-- Mirror of `EnhancedOTService.transformReplaceDelete`.  In the overlap
branch only the delete's length is clamped; no zero-length check occurs. -/
def transformReplaceDelete (op1 op2 : Op) (n : Nat) :
    (Option Op × Option Op) × Nat :=
  if op2.position + dLen op2 ≤ op1.position then
    ((some (mkOp op1.type (op1.position - dLen op2) op1.content op1.length
        op1.userId op1.timestamp op1.clientId n), some op2), n + 1)
  else if op1.position + dLen op1 ≤ op2.position then
    ((some op1,
      some (mkOp op2.type (op2.position - dLen op1 + cLen op1) op2.content
        op2.length op2.userId op2.timestamp op2.clientId n)), n + 1)
  else
    let overlap := min (op1.position + dLen op1) (op2.position + dLen op2) -
      max op1.position op2.position
    ((some op1,
      some (mkOp op2.type op1.position op2.content (some (dLen op2 - overlap))
        op2.userId op2.timestamp op2.clientId n)), n + 1)

/-- Mirror of `EnhancedOTService.transformReplaceReplace`. -/
def transformReplaceReplace (op1 op2 : Op) (prio : Bool) (n : Nat) :
    (Option Op × Option Op) × Nat :=
  if op1.position + dLen op1 ≤ op2.position then
    ((some op1,
      some (mkOp op2.type (op2.position - dLen op1 + cLen op1) op2.content
        op2.length op2.userId op2.timestamp op2.clientId n)), n + 1)
  else if op2.position + dLen op2 ≤ op1.position then
    ((some (mkOp op1.type (op1.position - dLen op2 + cLen op2) op1.content
        op1.length op1.userId op1.timestamp op1.clientId n), some op2), n + 1)
  else if prio then ((some op1, none), n)
  else ((none, some op2), n)

/-- Mirror of `EnhancedOTService.transform`: the id-idempotence check followed
by the nine-case dispatch; any pair involving `retain` takes the default
branch and is returned untouched. -/
def transform (op1 op2 : Op) (prio : Bool) (n : Nat) :
    (Option Op × Option Op) × Nat :=
  if op1.id = op2.id then ((some op1, none), n)
  else
    match op1.type, op2.type with
    | .insert, .insert => transformInsertInsert op1 op2 prio n
    | .insert, .delete => transformInsertDelete op1 op2 n
    | .insert, .replace => transformInsertReplace op1 op2 n
    | .delete, .insert => transformDeleteInsert op1 op2 n
    | .delete, .delete => transformDeleteDelete op1 op2 n
    | .delete, .replace => transformDeleteReplace op1 op2 n
    | .replace, .insert => transformReplaceInsert op1 op2 n
    | .replace, .delete => transformReplaceDelete op1 op2 n
    | .replace, .replace => transformReplaceReplace op1 op2 prio n
    | _, _ => ((some op1, some op2), n)

/-- Loop body of `EnhancedOTService.transformAgainstOperations`: fold the
current transformed operation over the list, transforming against every
strictly earlier (timestamp, then userId) operation and aborting with `none`
on absorption. -/
def transformAgainstOpsGo (t : Op) (ops : List Op) (n : Nat) : Option Op × Nat :=
  match ops with
  | [] => (some t, n)
  | op :: rest =>
    if op.timestamp < t.timestamp ∨
        (op.timestamp = t.timestamp ∧ op.userId < t.userId) then
      match transform t op false n with
      | ((some newOp, _), n') => transformAgainstOpsGo newOp rest n'
      | ((none, _), n') => (none, n')
    else transformAgainstOpsGo t rest n

/-- Mirror of `EnhancedOTService.transformAgainstOperations` (the initial
`clone()` copies every field, hence is the identity here). -/
def transformAgainstOperations (operation : Op) (operations : List Op) (n : Nat) :
    Option Op × Nat :=
  transformAgainstOpsGo operation operations n

/-- Mirror of `EnhancedOTService.applyOperation`.  A null operation or one
whose `applied` flag is set leaves the content unchanged; `str.slice` on
non-negative in-range indices is `take`/`drop` on the character data. -/
def applyOperation (content : String) (operation : Option Op) : String :=
  match operation with
  | none => content
  | some op =>
    if op.applied then content
    else
      match op.type with
      | .insert =>
        ⟨content.data.take op.position ++ (op.content.getD "").data ++
          content.data.drop op.position⟩
      | .delete =>
        ⟨content.data.take op.position ++
          content.data.drop (op.position + dLen op)⟩
      | .replace =>
        ⟨content.data.take op.position ++ (op.content.getD "").data ++
          content.data.drop (op.position + dLen op)⟩
      | .retain => content

/-- Comparator order of `mergeOperations`' sort: by position, then timestamp
(the JavaScript sort is stable). -/
def posTsLE (a b : Op) : Bool :=
  a.position < b.position || (a.position == b.position && a.timestamp ≤ b.timestamp)

/-- Stable insertion for `sortByPosTs`. -/
def insertByPosTs (x : Op) : List Op → List Op
  | [] => [x]
  | h :: t => if posTsLE x h then x :: h :: t else h :: insertByPosTs x t

/-- Stable sort by (position, timestamp), modelling
`operations.sort((a, b) => ...)` in `mergeOperations`. -/
def sortByPosTs : List Op → List Op
  | [] => []
  | h :: t => insertByPosTs h (sortByPosTs t)

/-- Stable insertion for `sortByTs`. -/
def insertByTs (x : Op) : List Op → List Op
  | [] => [x]
  | h :: t => if x.timestamp ≤ h.timestamp then x :: h :: t else h :: insertByTs x t

/-- Stable sort by timestamp, modelling
`processedOperations.sort((a, b) => a.timestamp - b.timestamp)`. -/
def sortByTs : List Op → List Op
  | [] => []
  | h :: t => insertByTs h (sortByTs t)

/-- One step of the merge loop in `EnhancedOTService.mergeOperations`:
consecutive inserts by the same user extending the current end concatenate
their content; consecutive deletes by the same user at the same position sum
their lengths; otherwise the current operation is pushed and replaced. -/
def mergeStep (acc : List Op × Op) (op : Op) : List Op × Op :=
  let current := acc.2
  if current.type == op.type && current.type == OpType.insert &&
      current.position + cLen current == op.position &&
      current.userId == op.userId then
    (acc.1, { current with content := some ((current.content.getD "") ++ (op.content.getD "")) })
  else if current.type == op.type && current.type == OpType.delete &&
      current.position == op.position && current.userId == op.userId then
    (acc.1, { current with length := some (dLen current + dLen op) })
  else (acc.1 ++ [current], op)

/-- The merge loop of `mergeOperations` applied to the sorted batch. -/
def mergeSorted : List Op → List Op
  | [] => []
  | first :: rest =>
    let p := rest.foldl mergeStep ([], first)
    p.1 ++ [p.2]

/-- Mirror of `EnhancedOTService.mergeOperations`: `null` for an empty batch
becomes `[]` (the caller skips it), a singleton is returned unsorted, larger
batches are sorted and folded. -/
def mergeOperations : List Op → List Op
  | [] => []
  | [op] => [op]
  | op1 :: op2 :: rest => mergeSorted (sortByPosTs (op1 :: op2 :: rest))

/-- One step of the user-grouping loop in `processOperationQueue`
(`operationsByUser` is a Map in insertion order). -/
def addToGroup (acc : List (String × List Op)) (op : Op) : List (String × List Op) :=
  if acc.any (fun p => p.1 == op.userId) then
    acc.map (fun p => if p.1 == op.userId then (p.1, p.2 ++ [op]) else p)
  else acc ++ [(op.userId, [op])]

/-- Group the queued operations by `userId`, preserving first-seen user order
and per-user arrival order. -/
def groupByUser (ops : List Op) : List (String × List Op) :=
  ops.foldl addToGroup []

/-- The `processedOperations` list of `processOperationQueue`: each user's
group merged, results concatenated in group order. -/
def processedOps (queue : List Op) : List Op :=
  (groupByUser queue).foldl (fun acc g => acc ++ mergeOperations g.2) []

/-- One step of the canonical application loop of `processOperationQueue`:
transform the next operation against the already-applied batch; on success
apply it to the running content (while its `applied` flag is still false) and
append it, flagged applied, to the batch; on absorption drop it. -/
def flushStep (acc : String × List Op × Nat) (op : Op) : String × List Op × Nat :=
  match transformAgainstOperations op acc.2.1 acc.2.2 with
  | (some t, n') =>
    (applyOperation acc.1 (some t), acc.2.1 ++ [{ t with applied := true }], n')
  | (none, n') => (acc.1, acc.2.1, n')

/-- The canonical application loop over the sorted batch. -/
def flushFold (content : String) (ops : List Op) (n : Nat) : String × List Op × Nat :=
  ops.foldl flushStep (content, [], n)

/-- In-memory document record (`createDocument` in
enhanced-document-manager.js), restricted to the fields the engine mutates;
`activeUsers` keeps the session ids. -/
structure Doc where
  id : String
  title : String
  content : String
  operations : List Op
  version : Nat
  characterCount : Nat
  activeUsers : List String
deriving DecidableEq

/-- Payload of the `document-sync` broadcast. -/
structure Sync where
  content : String
  version : Nat
  operations : List Op
deriving DecidableEq

/-- Result of one run of `processOperationQueue`: the updated document, the
remaining queue, the emitted `document-sync` (if any), the applied batch and
the advanced id counter. -/
structure FlushResult where
  doc : Doc
  queue : List Op
  sync : Option Sync
  applied : List Op
  ctr : Nat
deriving DecidableEq

/-- Mirror of `EnhancedDocumentManager.processOperationQueue` for one
document.  `saveOk` models whether `saveDocument` succeeds and `ioOk` whether
the broadcast sink is available; a failure of either throws inside the `try`
block after the in-memory commit, so content, version and the operations tail
keep their new values while the `document-sync` emission and the
queue-clearing are skipped. -/
def processOperationQueue (doc : Doc) (queue : List Op) (n : Nat)
    (saveOk ioOk : Bool) : FlushResult :=
  if queue.isEmpty then ⟨doc, queue, none, [], n⟩
  else
    let sorted := sortByTs (processedOps queue)
    let r := flushFold doc.content sorted n
    let applied := r.2.1
    let doc' := { doc with
      content := r.1
      operations := doc.operations ++ applied
      version := doc.version + 1
      characterCount := r.1.length }
    if saveOk && ioOk then ⟨doc', [], some ⟨r.1, doc.version + 1, applied⟩, applied, r.2.2⟩
    else ⟨doc', queue, none, applied, r.2.2⟩

/-- Mirror of `EnhancedDocumentManager.applyOperationImmediate`: transform the
inbound operation against (at most) the last 10 applied operations; if not
absorbed, compute the tentative content and emit `operation-immediate`. -/
def applyOperationImmediate (doc : Doc) (op : Op) (n : Nat) :
    Option (Op × String) × Option Op × Nat :=
  let recentOps := doc.operations.drop (doc.operations.length - 10)
  match transformAgainstOperations op recentOps n with
  | (none, n') => (none, none, n')
  | (some t, n') => (some (t, applyOperation doc.content (some t)), some t, n')

/-- Result of `queueOperation`: the updated queue, the `operation-immediate`
echo (transformed op and tentative content) if one was broadcast, and the
returned transformed operation. -/
structure EchoResult where
  queue : List Op
  echo : Option (Op × String)
  result : Option Op
  ctr : Nat
deriving DecidableEq

/-- Mirror of `EnhancedDocumentManager.queueOperation`: if the document is not
in memory nothing happens; otherwise the operation is appended to the queue
unconditionally (no validation of kind, position or fields takes place
anywhere on this path), the debounce timer is re-armed, and an immediate echo
is attempted. -/
def queueOperation (docOpt : Option Doc) (queue : List Op) (op : Op) (n : Nat) :
    EchoResult :=
  match docOpt with
  | none => ⟨queue, none, none, n⟩
  | some doc =>
    let queue' := queue ++ [op]
    let r := applyOperationImmediate doc op n
    ⟨queue', r.1, r.2.1, r.2.2⟩

/-- Per-session record kept in `userSessions` (restricted to the fields the
manager reads back). -/
structure Session where
  id : String
  documentId : String
deriving DecidableEq

/-- State of a persisted snapshot for one document id: no file, an
empty/unparsable file, or a file that parses to a document. -/
inductive Snapshot
  | missing
  | bad
  | good (d : Doc)
deriving DecidableEq

/-- Mirror of the `EnhancedDocumentManager` instance state: the in-memory
document cache, the per-document operation queues, the on-disk store, the
session registry, the set of armed debounce timers, and the id-generator
counter. -/
structure MgrState where
  activeDocuments : List (String × Doc)
  operationQueues : List (String × List Op)
  store : List (String × Snapshot)
  userSessions : List (String × Session)
  debounced : List String
  ctr : Nat
deriving DecidableEq

/-- `Map.get(k)` on an association list. -/
def lookupKey {α : Type} (l : List (String × α)) (k : String) : Option α :=
  (l.find? (fun p => p.1 == k)).map (fun p => p.2)

/-- `Map.set(k, v)` on an association list (update in place or append). -/
def setKey {α : Type} (l : List (String × α)) (k : String) (v : α) :
    List (String × α) :=
  if l.any (fun p => p.1 == k) then
    l.map (fun p => if p.1 == k then (k, v) else p)
  else l ++ [(k, v)]

/-- `Map.delete(k)` on an association list. -/
def removeKey {α : Type} (l : List (String × α)) (k : String) :
    List (String × α) :=
  l.filter (fun p => p.1 != k)

/-- Mirror of `EnhancedDocumentManager.createDocument`: the new document gets
a freshly generated uuid as its id (the requested id is never passed in),
empty content, version 1, and is saved and cached under that fresh id. -/
def createDocument (st : MgrState) (title : String) : Doc × MgrState :=
  let docId := uuid st.ctr
  let doc : Doc := ⟨docId, title, "", [], 1, 0, []⟩
  let st' := { st with
    store := setKey st.store docId (Snapshot.good doc)
    activeDocuments := setKey st.activeDocuments docId doc
    operationQueues := setKey st.operationQueues docId []
    ctr := st.ctr + 1 }
  (doc, st')

/-- Mirror of `EnhancedDocumentManager.loadDocument`: return the cached
document if present; otherwise a missing, empty or unparsable snapshot makes
the manager call `createDocument` with title `Document <id>`; a good snapshot
is cached under the requested id. -/
def loadDocument (st : MgrState) (docId : String) : Option Doc × MgrState :=
  match lookupKey st.activeDocuments docId with
  | some d => (some d, st)
  | none =>
    match (lookupKey st.store docId).getD Snapshot.missing with
    | Snapshot.missing =>
      let r := createDocument st ("Document " ++ docId)
      (some r.1, r.2)
    | Snapshot.bad =>
      let r := createDocument st ("Document " ++ docId)
      (some r.1, r.2)
    | Snapshot.good d =>
      let st' := { st with
        operationQueues :=
          if st.operationQueues.any (fun p => p.1 == docId) then st.operationQueues
          else setKey st.operationQueues docId []
        activeDocuments := setKey st.activeDocuments docId d }
      (some d, st')

/-- Mirror of `EnhancedDocumentManager.removeUserFromDocument`.  The session
entry is deleted from `userSessions` first and only then looked up again, so
the lookup always yields `none` and the flush branch is unreachable; the
queue check and forced flush nevertheless follow the source (a flush forced
here runs with a null `io`, whose broadcast throws after the save — `ioOk`
is therefore false on that path).  Returns the new state and whether a flush
was forced. -/
def removeUserFromDocument (st : MgrState) (documentId socketId : String)
    (saveOk : Bool) : MgrState × Bool :=
  match lookupKey st.activeDocuments documentId with
  | none => (st, false)
  | some doc =>
    let doc0 := { doc with activeUsers := doc.activeUsers.filter (fun s => s != socketId) }
    let sessions := removeKey st.userSessions socketId
    let queue := (lookupKey st.operationQueues documentId).getD []
    let doFlush :=
      match lookupKey sessions socketId with
      | some us => queue.any (fun op => op.userId == us.id) &&
          st.debounced.contains documentId
      | none => false
    let st1 :=
      if doFlush then
        let r := processOperationQueue doc0 queue st.ctr saveOk false
        { st with
          activeDocuments := setKey st.activeDocuments documentId r.doc
          operationQueues := setKey st.operationQueues documentId r.queue
          userSessions := sessions
          debounced := st.debounced.filter (fun d => d != documentId)
          ctr := r.ctr }
      else
        { st with
          activeDocuments := setKey st.activeDocuments documentId doc0
          userSessions := sessions }
    let finalDoc := (lookupKey st1.activeDocuments documentId).getD doc0
    let st2 :=
      if saveOk then
        { st1 with store := setKey st1.store finalDoc.id (Snapshot.good finalDoc) }
      else st1
    (st2, doFlush)

/-- A transformed output of the OT algebra is a fresh construction: same
kind, payload, user, timestamp and client as the input, but the next
generated id, version reset to 1 and applied reset to false (only the
position may differ). -/
def freshTransformCopy (o' o : Op) (n : Nat) : Prop :=
  o'.type = o.type ∧ o'.content = o.content ∧ o'.length = o.length ∧
  o'.userId = o.userId ∧ o'.timestamp = o.timestamp ∧
  o'.clientId = o.clientId ∧ o'.id = uuid n ∧ o'.version = 1 ∧
  o'.applied = false

theorem insertByPosTs_length (x : Op) (l : List Op) :
    (insertByPosTs x l).length = l.length + 1 := by
  induction l with
  | nil => rfl
  | cons h t ih =>
    simp only [insertByPosTs]
    by_cases hp : posTsLE x h = true
    · simp [hp]
    · simp [hp, ih]

theorem sortByPosTs_length (l : List Op) : (sortByPosTs l).length = l.length := by
  induction l with
  | nil => rfl
  | cons a t ih => simp [sortByPosTs, insertByPosTs_length, ih]

theorem sortByPosTs_ne_nil {l : List Op} (h : l ≠ []) : sortByPosTs l ≠ [] := by
  intro hc
  have := sortByPosTs_length l
  rw [hc] at this
  exact h (List.eq_nil_of_length_eq_zero this.symm)

theorem insertByTs_length (x : Op) (l : List Op) :
    (insertByTs x l).length = l.length + 1 := by
  induction l with
  | nil => rfl
  | cons h t ih =>
    simp only [insertByTs]
    by_cases hp : x.timestamp ≤ h.timestamp
    · simp [hp]
    · simp [hp, ih]

theorem sortByTs_length (l : List Op) : (sortByTs l).length = l.length := by
  induction l with
  | nil => rfl
  | cons a t ih => simp [sortByTs, insertByTs_length, ih]

theorem sortByTs_ne_nil {l : List Op} (h : l ≠ []) : sortByTs l ≠ [] := by
  intro hc
  have := sortByTs_length l
  rw [hc] at this
  exact h (List.eq_nil_of_length_eq_zero this.symm)

theorem mergeSorted_ne_nil {l : List Op} (h : l ≠ []) : mergeSorted l ≠ [] := by
  cases l with
  | nil => exact absurd rfl h
  | cons a t =>
    simp only [mergeSorted]
    intro hc
    exact List.cons_ne_nil _ _ (List.append_eq_nil.mp hc).2

theorem mergeOperations_ne_nil {l : List Op} (h : l ≠ []) :
    mergeOperations l ≠ [] := by
  match l with
  | [] => exact absurd rfl h
  | [op] => simp [mergeOperations]
  | op1 :: op2 :: rest =>
    simp only [mergeOperations]
    exact mergeSorted_ne_nil (sortByPosTs_ne_nil (by simp))

theorem addToGroup_ne_nil (acc : List (String × List Op)) (op : Op) :
    addToGroup acc op ≠ [] := by
  by_cases hc : acc.any (fun p => p.1 == op.userId) = true
  · cases acc with
    | nil => simp at hc
    | cons a t => simp [addToGroup, hc]
  · simp [addToGroup, hc]

theorem foldl_addToGroup_ne_nil (l : List Op) :
    ∀ acc, acc ≠ [] → l.foldl addToGroup acc ≠ [] := by
  induction l with
  | nil => intro acc h; exact h
  | cons a t ih =>
    intro acc _
    simp only [List.foldl_cons]
    exact ih _ (addToGroup_ne_nil acc a)

theorem groupByUser_ne_nil {l : List Op} (h : l ≠ []) : groupByUser l ≠ [] := by
  cases l with
  | nil => exact absurd rfl h
  | cons a t =>
    simp only [groupByUser, List.foldl_cons]
    exact foldl_addToGroup_ne_nil t _ (addToGroup_ne_nil [] a)

theorem addToGroup_groups_ne_nil {acc : List (String × List Op)} (op : Op)
    (h : ∀ p ∈ acc, p.2 ≠ []) : ∀ p ∈ addToGroup acc op, p.2 ≠ [] := by
  intro p hp
  unfold addToGroup at hp
  by_cases hc : acc.any (fun q => q.1 == op.userId) = true
  · rw [if_pos hc, List.mem_map] at hp
    obtain ⟨q, hq, hpq⟩ := hp
    by_cases h2 : (q.1 == op.userId) = true
    · rw [if_pos h2] at hpq
      rw [← hpq]
      simp
    · rw [if_neg h2] at hpq
      rw [← hpq]
      exact h q hq
  · rw [if_neg hc, List.mem_append] at hp
    rcases hp with hp | hp
    · exact h p hp
    · rw [List.mem_singleton] at hp
      rw [hp]
      simp

theorem foldl_addToGroup_groups (l : List Op) :
    ∀ acc, (∀ p ∈ acc, p.2 ≠ []) → ∀ p ∈ l.foldl addToGroup acc, p.2 ≠ [] := by
  induction l with
  | nil => intro acc h; exact h
  | cons a t ih =>
    intro acc h
    simp only [List.foldl_cons]
    exact ih _ (addToGroup_groups_ne_nil a h)

theorem groupByUser_groups {l : List Op} :
    ∀ p ∈ groupByUser l, p.2 ≠ [] :=
  foldl_addToGroup_groups l [] (by simp)

theorem foldl_appendMerge_ne_nil (l : List (String × List Op)) :
    ∀ acc : List Op, acc ≠ [] →
      l.foldl (fun acc g => acc ++ mergeOperations g.2) acc ≠ [] := by
  induction l with
  | nil => intro acc h; exact h
  | cons g t ih =>
    intro acc h
    simp only [List.foldl_cons]
    apply ih
    intro hc
    exact h (List.append_eq_nil.mp hc).1

theorem processedOps_ne_nil {queue : List Op} (h : queue ≠ []) :
    processedOps queue ≠ [] := by
  unfold processedOps
  obtain ⟨g, gs, hg⟩ : ∃ g gs, groupByUser queue = g :: gs := by
    cases hgb : groupByUser queue with
    | nil => exact absurd hgb (groupByUser_ne_nil h)
    | cons g gs => exact ⟨g, gs, rfl⟩
  rw [hg]
  simp only [List.foldl_cons, List.nil_append]
  exact foldl_appendMerge_ne_nil gs _
    (mergeOperations_ne_nil (groupByUser_groups g (hg ▸ List.mem_cons_self g gs)))

theorem flushStep_preserves (acc : String × List Op × Nat) (op : Op)
    (h : acc.2.1 ≠ []) : (flushStep acc op).2.1 ≠ [] := by
  unfold flushStep
  rcases transformAgainstOperations op acc.2.1 acc.2.2 with ⟨_ | t, n'⟩
  · simpa using h
  · simp

theorem foldl_flushStep_preserves (l : List Op) :
    ∀ acc, acc.2.1 ≠ [] → (l.foldl flushStep acc).2.1 ≠ [] := by
  induction l with
  | nil => intro acc h; exact h
  | cons a t ih =>
    intro acc h
    simp only [List.foldl_cons]
    exact ih _ (flushStep_preserves acc a h)

theorem flushFold_ne_nil {ops : List Op} (content : String) (n : Nat)
    (h : ops ≠ []) : (flushFold content ops n).2.1 ≠ [] := by
  cases ops with
  | nil => exact absurd rfl h
  | cons a t =>
    unfold flushFold
    simp only [List.foldl_cons]
    apply foldl_flushStep_preserves
    simp [flushStep, transformAgainstOperations, transformAgainstOpsGo]

/-- C7: at every flush of a non-empty queue the applied batch is non-empty
(the first merged operation transforms against an empty batch and is never
absorbed) and the version increases by exactly 1; hence the version is bumped
once per flush that applied at least one operation, and the absorbed-all case
of the claim never occurs. -/
theorem flush_bumps_version (doc : Doc) (queue : List Op) (n : Nat)
    (saveOk ioOk : Bool) (h : queue ≠ []) :
    (processOperationQueue doc queue n saveOk ioOk).applied ≠ [] ∧
    (processOperationQueue doc queue n saveOk ioOk).doc.version = doc.version + 1 := by
  have hq : queue.isEmpty = false := by
    cases queue with
    | nil => exact absurd rfl h
    | cons a t => rfl
  have happ : (flushFold doc.content (sortByTs (processedOps queue)) n).2.1 ≠ [] :=
    flushFold_ne_nil doc.content n (sortByTs_ne_nil (processedOps_ne_nil h))
  unfold processOperationQueue
  simp only [hq]
  by_cases hio : (saveOk && ioOk) = true
  · simp only [hio]
    exact ⟨happ, rfl⟩
  · simp only [Bool.not_eq_true] at hio
    simp only [hio]
    exact ⟨happ, rfl⟩

/-- C7 witness: a concrete non-empty flush applies its batch and bumps the
version. -/
theorem flush_bumps_version_witness :
    (processOperationQueue ⟨"d1", "t", "", [], 1, 0, []⟩
      [⟨.insert, 0, some "A", none, "u1", 100, none, "ida", 1, false⟩]
      0 true true).applied ≠ [] ∧
    (processOperationQueue ⟨"d1", "t", "", [], 1, 0, []⟩
      [⟨.insert, 0, some "A", none, "u1", 100, none, "ida", 1, false⟩]
      0 true true).doc.version = (⟨"d1", "t", "", [], 1, 0, []⟩ : Doc).version + 1 :=
  flush_bumps_version _ _ 0 true true (by decide)

/-- C9: `applyOperation` returns the content unchanged for an absent
operation and for any operation whose `applied` flag is set, whatever its
kind and fields; consequently the length relation
`|apply(s, op)| = |s| + |content| - length` fails for applied operations. -/
theorem applyOperation_noop :
    (∀ s : String, applyOperation s none = s) ∧
    (∀ (s : String) (op : Op), op.applied = true → applyOperation s (some op) = s) ∧
    ¬ (∀ (s : String) (op : Op),
        (applyOperation s (some op)).length = s.length + cLen op - dLen op) := by
  refine ⟨fun s => rfl, fun s op h => by simp [applyOperation, h], fun hall => ?_⟩
  exact absurd
    (hall "" ⟨.insert, 0, some "x", none, "u", 0, none, "i", 1, true⟩)
    (by decide)

/-- C9 witness: a concrete already-applied insert leaves the content
unchanged. -/
theorem applyOperation_noop_witness :
    applyOperation "ab" (some ⟨.insert, 0, some "x", none, "u", 0, none, "i", 1, true⟩) =
      "ab" :=
  applyOperation_noop.2.1 "ab" ⟨.insert, 0, some "x", none, "u", 0, none, "i", 1, true⟩ rfl

/-- C10: in `transformInsertInsert` and `transformInsertDelete` exactly one
side passes through unchanged while the other is a freshly constructed copy
(same kind, payload, user, timestamp, client; next generated id; version
reset to 1; applied reset to false); the equal-id check of `transform`
short-circuits to `(op1, absent)`; and a fresh copy compares equal by id to
its original only if the generated id collides with the original id. -/
theorem transform_outputs_fresh_copies (o1 o2 : Op) (prio : Bool) (n : Nat) :
    (((transformInsertInsert o1 o2 prio n).1.1 = some o1 ∧
      (∃ o', (transformInsertInsert o1 o2 prio n).1.2 = some o' ∧
        freshTransformCopy o' o2 n)) ∨
     ((transformInsertInsert o1 o2 prio n).1.2 = some o2 ∧
      (∃ o', (transformInsertInsert o1 o2 prio n).1.1 = some o' ∧
        freshTransformCopy o' o1 n))) ∧
    (((transformInsertDelete o1 o2 n).1.1 = some o1 ∧
      (∃ o', (transformInsertDelete o1 o2 n).1.2 = some o' ∧
        freshTransformCopy o' o2 n)) ∨
     ((transformInsertDelete o1 o2 n).1.2 = some o2 ∧
      (∃ o', (transformInsertDelete o1 o2 n).1.1 = some o' ∧
        freshTransformCopy o' o1 n))) ∧
    (o1.id = o2.id → transform o1 o2 prio n = ((some o1, none), n)) ∧
    (∀ o' : Op, freshTransformCopy o' o2 n → (o'.id = o2.id ↔ uuid n = o2.id)) := by
  refine ⟨?_, ?_, ?_, ?_⟩
  · by_cases hc : o1.position < o2.position ∨ (o1.position = o2.position ∧ prio = true)
    · left
      unfold transformInsertInsert
      rw [if_pos hc]
      exact ⟨rfl, _, rfl, by simp [freshTransformCopy, mkOp]⟩
    · right
      unfold transformInsertInsert
      rw [if_neg hc]
      exact ⟨rfl, _, rfl, by simp [freshTransformCopy, mkOp]⟩
  · by_cases hc : o1.position ≤ o2.position
    · left
      unfold transformInsertDelete
      rw [if_pos hc]
      exact ⟨rfl, _, rfl, by simp [freshTransformCopy, mkOp]⟩
    · by_cases h2 : o2.position + dLen o2 ≤ o1.position
      · right
        unfold transformInsertDelete
        rw [if_neg hc, if_pos h2]
        exact ⟨rfl, _, rfl, by simp [freshTransformCopy, mkOp]⟩
      · right
        unfold transformInsertDelete
        rw [if_neg hc, if_neg h2]
        exact ⟨rfl, _, rfl, by simp [freshTransformCopy, mkOp]⟩
  · intro h
    unfold transform
    rw [if_pos h]
  · intro o' hf
    obtain ⟨-, -, -, -, -, -, hid, -, -⟩ := hf
    rw [hid]

/-- C10 witness: the equal-id idempotence branch at a concrete operation. -/
theorem transform_outputs_fresh_copies_witness :
    transform (⟨.insert, 0, some "x", none, "u", 1, none, "ida", 1, false⟩ : Op)
        (⟨.insert, 0, some "x", none, "u", 1, none, "ida", 1, false⟩ : Op) true 7 =
      ((some ⟨.insert, 0, some "x", none, "u", 1, none, "ida", 1, false⟩, none), 7) :=
  (transform_outputs_fresh_copies
    ⟨.insert, 0, some "x", none, "u", 1, none, "ida", 1, false⟩
    ⟨.insert, 0, some "x", none, "u", 1, none, "ida", 1, false⟩ true 7).2.2.1 rfl

/-- C4 counterexample: an operation of kind `retain` (outside the admitted
set insert/delete/replace) sent for a loaded document is enqueued, echoed to
peers and returned transformed — not rejected, and engine state changes. -/
theorem invalid_op_enqueued_and_echoed :
    (let doc : Doc := ⟨"d1", "t", "", [], 1, 0, []⟩
     let op : Op := ⟨.retain, 0, none, none, "u1", 100, none, "ida", 1, false⟩
     (queueOperation (some doc) [] op 0).queue = [op] ∧
     (queueOperation (some doc) [] op 0).echo ≠ none ∧
     (queueOperation (some doc) [] op 0).result = some op) := by decide

/-- C4 (amended): no admission validation exists — every operation addressed
to a document that is loaded in memory is appended to the queue
unconditionally, whatever its kind, position or fields; an immediate echo is
then only attempted (tail-transform absorption, not validation, may suppress
it). -/
theorem enqueue_unconditional (doc : Doc) (queue : List Op) (op : Op) (n : Nat) :
    (queueOperation (some doc) queue op n).queue = queue ++ [op] := rfl

/-- C6 counterexample: when the save fails during a flush, the in-memory
commit is retained (content and version take their new values) but the
`document-sync` for the batch is not emitted and the queue is not cleared —
the claim's "emitted regardless" is false on the code. -/
theorem save_failure_skips_sync :
    (let doc : Doc := ⟨"d1", "t", "AB", [], 1, 2, []⟩
     let op : Op := ⟨.insert, 2, some "C", none, "u1", 100, none, "ida", 1, false⟩
     (processOperationQueue doc [op] 0 false true).sync = none ∧
     (processOperationQueue doc [op] 0 false true).doc.content = "ABC" ∧
     (processOperationQueue doc [op] 0 false true).doc.version = 2 ∧
     (processOperationQueue doc [op] 0 false true).queue = [op]) := by decide

/-- C6 (amended): a failed save is only logged; the in-memory flush result
(the whole document record) is identical to the successful-save run, but no
`document-sync` is emitted and the queue is left in place, so the next flush
re-processes the batch and re-attempts the save. -/
theorem save_failure_retains_memory (doc : Doc) (queue : List Op) (n : Nat)
    (ioOk : Bool) :
    (processOperationQueue doc queue n false ioOk).doc =
      (processOperationQueue doc queue n true true).doc ∧
    (processOperationQueue doc queue n false ioOk).sync = none ∧
    (processOperationQueue doc queue n false ioOk).queue = queue := by
  unfold processOperationQueue
  by_cases hq : queue.isEmpty = true
  · simp [hq]
  · simp only [Bool.not_eq_true] at hq
    simp [hq]

/-- The overlap span computed in the overlapping branches of the
delete/replace transforms. -/
def overlapOf (o1 o2 : Op) : Nat :=
  min (o1.position + dLen o1) (o2.position + dLen o2) -
    max o1.position o2.position

/-- C1: TP1 fails on the code.  For `s = "0123456789"`,
`a = delete(pos 2, len 4)`, `b = delete(pos 4, len 4)` and
`transform(a, b, true) = (a', b')`, applying `a` then `b'` yields `"0167"`
while applying `b` then `a'` yields `"0189"`: the overlapping delete-delete
branch clamps lengths but never shifts positions, so the two application
orders diverge. -/
theorem tp1_fails_on_overlapping_deletes :
    (let s := "0123456789"
     let a : Op := ⟨.delete, 2, none, some 4, "u1", 300, none, "ida", 1, false⟩
     let b : Op := ⟨.delete, 4, none, some 4, "u2", 301, none, "idb", 1, false⟩
     let r := (transform a b true 0).1
     applyOperation (applyOperation s (some a)) r.2 = "0167" ∧
     applyOperation (applyOperation s (some b)) r.1 = "0189" ∧
     applyOperation (applyOperation s (some a)) r.2 ≠
       applyOperation (applyOperation s (some b)) r.1) := by decide

/-- C2: the overlapping-delete batch of Scenario C.  The mutual transform
does clamp both remaining lengths to 2 and absorbs neither side, and in the
flush neither operation is absorbed (applied lengths 4 and 2), but the final
content is `"0167"`, not the `"0189"` the claim states: the surviving part
of U2 keeps its original position 4 instead of shifting to position 2. -/
theorem overlapping_delete_scenario :
    (let doc : Doc := ⟨"d1", "t", "0123456789", [], 1, 10, []⟩
     let u1 : Op := ⟨.delete, 2, none, some 4, "u1", 300, none, "ida", 1, false⟩
     let u2 : Op := ⟨.delete, 4, none, some 4, "u2", 301, none, "idb", 1, false⟩
     let r := processOperationQueue doc [u1, u2] 0 true true
     r.doc.content = "0167" ∧
     r.doc.content ≠ "0189" ∧
     r.applied.map (fun o => o.length) = [some 4, some 2] ∧
     (transform u1 u2 true 0).1.1.map (fun o => o.length) = some (some 2) ∧
     (transform u1 u2 true 0).1.2.map (fun o => o.length) = some (some 2)) := by decide

/-- C3: loading an id with no persisted snapshot creates a document whose id
is a freshly generated uuid, not the requested id; the record is cached and
persisted under that foreign id, so the requested id stays unknown and a
second load of the same id creates yet another record. -/
theorem lazy_create_returns_foreign_id :
    (let st0 : MgrState := ⟨[], [], [], [], [], 0⟩
     let r1 := loadDocument st0 ("D")
     let r2 := loadDocument r1.2 ("D")
     r1.1.map (fun d => d.id) = some (uuid 0) ∧
     uuid 0 ≠ "D" ∧
     r1.1.map (fun d => d.content) = some "" ∧
     lookupKey r1.2.activeDocuments ("D") = none ∧
     r2.1.map (fun d => d.id) = some (uuid 1)) := by decide

/-- C5: a session that detaches while its operation is still queued forces no
flush.  The session entry is removed from `userSessions` before it is read
back, so the flush guard always sees `undefined` and the queued operation
stays in the queue with the debounce timer still armed; the document is saved
with its old content and `user-left` is emitted without a preceding
`document-sync`. -/
theorem leave_never_flushes :
    (let op : Op := ⟨.insert, 0, some "Z", none, "u1", 100, none, "ida", 1, false⟩
     let doc : Doc := ⟨"d1", "t", "hello", [], 1, 5, ["s1"]⟩
     let st : MgrState :=
       ⟨[("d1", doc)], [("d1", [op])], [], [("s1", ⟨"u1", "d1"⟩)], ["d1"], 0⟩
     let r := removeUserFromDocument st ("d1") ("s1") true
     r.2 = false ∧
     (lookupKey r.1.operationQueues ("d1")).getD [] = [op] ∧
     (lookupKey r.1.activeDocuments ("d1")).map (fun d => d.content) = some "hello" ∧
     (lookupKey r.1.activeDocuments ("d1")).map (fun d => d.version) = some 1 ∧
     r.1.debounced = ["d1"]) := by decide

/-- C8 counterexample: an overlap fully covering the delete side.  In the
delete-replace and replace-delete branches the clamped-to-zero delete is
yielded as a present zero-length operation, not as absent as the claim
states for every overlapping branch. -/
theorem zero_length_not_absorbed_outside_delete_delete :
    (let d : Op := ⟨.delete, 0, none, some 2, "u1", 1, none, "ida", 1, false⟩
     let rp : Op := ⟨.replace, 0, some "zzzz", some 4, "u2", 2, none, "idb", 1, false⟩
     (transform d rp false 0).1.1.map (fun o => (o.type, o.length)) =
       some (OpType.delete, some 0) ∧
     (transform rp d false 0).1.2.map (fun o => (o.type, o.length)) =
       some (OpType.delete, some 0)) := by decide

/-- C8 (amended): zero-length absorption happens only in the delete-delete
overlap branch, where each side is yielded as absent exactly when its
remaining length is zero; in the delete-replace and replace-delete overlap
branches the delete side is always yielded present, its length merely
clamped (possibly to zero). -/
theorem zero_length_absorption_only_delete_delete (o1 o2 : Op) (n : Nat)
    (h1 : ¬ (o1.position + dLen o1 ≤ o2.position))
    (h2 : ¬ (o2.position + dLen o2 ≤ o1.position)) :
    ((transformDeleteDelete o1 o2 n).1.1 = none ↔
      dLen o1 - overlapOf o1 o2 = 0) ∧
    ((transformDeleteDelete o1 o2 n).1.2 = none ↔
      dLen o2 - overlapOf o1 o2 = 0) ∧
    (transformDeleteReplace o1 o2 n).1.1.map (fun o => o.length) =
      some (some (dLen o1 - overlapOf o1 o2)) ∧
    (transformReplaceDelete o1 o2 n).1.2.map (fun o => o.length) =
      some (some (dLen o2 - overlapOf o1 o2)) := by
  unfold transformDeleteDelete transformDeleteReplace transformReplaceDelete
  rw [if_neg h1, if_neg h2, if_neg h1, if_neg h2, if_neg h2, if_neg h1]
  simp only [overlapOf]
  refine ⟨?_, ?_, rfl, rfl⟩
  · by_cases hz : 0 < dLen o1 -
        (min (o1.position + dLen o1) (o2.position + dLen o2) -
          max o1.position o2.position)
    · rw [if_pos hz]
      simp
      omega
    · rw [if_neg hz]
      simp
      omega
  · by_cases hz : 0 < dLen o2 -
        (min (o1.position + dLen o1) (o2.position + dLen o2) -
          max o1.position o2.position)
    · rw [if_pos hz]
      simp
      omega
    · rw [if_neg hz]
      simp
      omega

/-- C8 witness: the amended statement instantiated at a concrete overlapping
pair (delete fully covered by the other side). -/
theorem zero_length_absorption_witness :
    ((transformDeleteDelete
        ⟨.delete, 0, none, some 2, "u1", 1, none, "ida", 1, false⟩
        ⟨.delete, 0, none, some 4, "u2", 2, none, "idb", 1, false⟩ 0).1.1 = none ↔
      dLen ⟨.delete, 0, none, some 2, "u1", 1, none, "ida", 1, false⟩ -
        overlapOf ⟨.delete, 0, none, some 2, "u1", 1, none, "ida", 1, false⟩
          ⟨.delete, 0, none, some 4, "u2", 2, none, "idb", 1, false⟩ = 0) ∧
    ((transformDeleteDelete
        ⟨.delete, 0, none, some 2, "u1", 1, none, "ida", 1, false⟩
        ⟨.delete, 0, none, some 4, "u2", 2, none, "idb", 1, false⟩ 0).1.2 = none ↔
      dLen ⟨.delete, 0, none, some 4, "u2", 2, none, "idb", 1, false⟩ -
        overlapOf ⟨.delete, 0, none, some 2, "u1", 1, none, "ida", 1, false⟩
          ⟨.delete, 0, none, some 4, "u2", 2, none, "idb", 1, false⟩ = 0) ∧
    (transformDeleteReplace
        ⟨.delete, 0, none, some 2, "u1", 1, none, "ida", 1, false⟩
        ⟨.delete, 0, none, some 4, "u2", 2, none, "idb", 1, false⟩ 0).1.1.map
      (fun o => o.length) =
      some (some (dLen ⟨.delete, 0, none, some 2, "u1", 1, none, "ida", 1, false⟩ -
        overlapOf ⟨.delete, 0, none, some 2, "u1", 1, none, "ida", 1, false⟩
          ⟨.delete, 0, none, some 4, "u2", 2, none, "idb", 1, false⟩)) ∧
    (transformReplaceDelete
        ⟨.delete, 0, none, some 2, "u1", 1, none, "ida", 1, false⟩
        ⟨.delete, 0, none, some 4, "u2", 2, none, "idb", 1, false⟩ 0).1.2.map
      (fun o => o.length) =
      some (some (dLen ⟨.delete, 0, none, some 4, "u2", 2, none, "idb", 1, false⟩ -
        overlapOf ⟨.delete, 0, none, some 2, "u1", 1, none, "ida", 1, false⟩
          ⟨.delete, 0, none, some 4, "u2", 2, none, "idb", 1, false⟩)) :=
  zero_length_absorption_only_delete_delete
    ⟨.delete, 0, none, some 2, "u1", 1, none, "ida", 1, false⟩
    ⟨.delete, 0, none, some 4, "u2", 2, none, "idb", 1, false⟩ 0
    (by decide) (by decide)
